import Mathlib

/-!
# Verification of the ClusterIQ API snapshot cache and query layer

Shallow embedding of `src/cmd/api/api_server.go` (package `main`): the
in-memory inventory cache (`updateStock`), the five query handlers
(`getInstances`, `getClusters`, `getClustersByName`, `getAccounts`,
`getAccountsByName`) and the response constructors
(`NewInstanceListResponse`, `NewClusterListResponse`,
`NewAccountListResponse`).

Modelling conventions:
* Go maps (`map[string]Account`, `map[string]*Cluster`) are embedded as
  association lists `List (String × _)`; the list order stands for the
  map's iteration order. Go fixes no such order, so where a property turns
  on the order being unspecified, the other enumerations of the same map
  are modelled as permutations of the list with identical bindings
  (`responsesEquivUpToOrder` and the permutation lemmas).
* Go slices are embedded as `Option (List _)`: `none` is the nil slice
  (serialized as JSON `null`), `some l` a non-nil slice with elements `l`.
  `append` on a nil slice yields a non-nil slice, as in Go.
* The Redis round-trip plus JSON parse of `updateStock` is embedded as a
  `FetchOutcome` with four cases: retrieval error (the `rdb.Get` error
  path, where `val` is the empty string and `json.Unmarshal` fails on it
  before writing), deserialization error on syntactically invalid JSON
  (`json.Unmarshal` validates the whole input first and returns before
  writing anything), a failing decode of syntactically valid JSON (an
  `UnmarshalTypeError`: per the documented semantics the decoder skips the
  offending value, "completes the unmarshaling as best it can", so the
  entries it did decode are already stored in the reused map when the —
  ignored — error is returned), and a fully successful parse into a
  snapshot `Inventory` value.
* `json.Unmarshal([]byte(val), &inven)` decodes into the *existing*
  `Inventory` struct behind the non-nil pointer `inven`. Per the
  documented semantics of `encoding/json`, decoding a JSON object into a
  non-nil map reuses the map and keeps existing entries: keys present in
  the JSON are stored with freshly decoded values, keys absent from the
  JSON survive. This in-place merge is embedded as `mergeGoMap`.
-/

namespace ClusterIQ

/-- Modelled from the spec (the `internal/inventory` package is not under
`src/`): an Instance is "identified by its own fields (opaque payload from
the cache's perspective)"; the cache never interprets it. -/
structure Instance where
  payload : String
deriving DecidableEq, Repr

/-- Modelled from the spec: a Cluster has a name and owns an ordered
sequence of Instances (`cluster.Name` and `cluster.Instances` in the
handlers). -/
structure Cluster where
  Name : String
  Instances : List Instance
deriving DecidableEq, Repr

/-- Modelled from the spec: an Account owns a mapping from cluster name to
Cluster (`account.Clusters`, a Go map with pointer values, dereferenced by
the handlers when collecting results). -/
structure Account where
  Name : String
  Clusters : List (String × Cluster)
deriving DecidableEq, Repr

/-- Modelled from the spec: the Inventory root is a mapping from account
name to Account (`inven.Accounts`). -/
structure Inventory where
  Accounts : List (String × Account)
deriving DecidableEq, Repr

/-- Modelled from the spec: `inventory.NewInventory()` yields the empty
cache ("empty if no load has ever succeeded"). -/
def NewInventory : Inventory := ⟨[]⟩

/-- Go map read `m[k]`: the value stored under key `k`, if present
(first binding in iteration order; Go maps have unique keys). -/
def mapLookup (m : List (String × α)) (k : String) : Option α :=
  match m with
  | [] => none
  | p :: rest => if p.1 == k then some p.2 else mapLookup rest k

/-- The keys of an embedded Go map are pairwise distinct (a Go map cannot
hold two bindings for one key). -/
@[reducible]
def KeysNodup (m : List (String × α)) : Prop :=
  (m.map Prod.fst).Nodup

/-- `encoding/json` decoding of a JSON object into an existing non-nil Go
map: every key of the JSON object (`new`) is stored with its freshly
decoded value, and existing entries under other keys (`old`) are kept. -/
def mergeGoMap (old new : List (String × α)) : List (String × α) :=
  old.filter (fun p => (mapLookup new p.1).isNone) ++ new

/-- Outcome of the Redis fetch plus JSON parse performed by `updateStock`.
`retrievalError`: `rdb.Get` fails, `val` is `""`, which `json.Unmarshal`
rejects before writing. `deserializationError`: fetched bytes are
syntactically invalid JSON, rejected by Unmarshal's upfront validation
before any write. `partialDecodeError written`: fetched bytes are valid
JSON but fail to decode (UnmarshalTypeError); the entries that decoded
successfully — `written` — are already stored into the reused map when the
error is returned. `snapshot snap`: the bytes decode completely to `snap`. -/
inductive FetchOutcome where
  | retrievalError
  | deserializationError
  | partialDecodeError (written : Inventory)
  | snapshot (snap : Inventory)
deriving DecidableEq, Repr

/-- `updateStock` (api_server.go lines 222–231): fetch the `Stock` key from
Redis; on a Get error the error is only logged and `val` is `""`, which
`json.Unmarshal` rejects before writing, leaving `inven` untouched;
syntactically invalid JSON is likewise rejected upfront. The code then
discards `json.Unmarshal`'s return value entirely, so both a fully
successful decode and a valid-JSON decode that fails partway (after
storing its successfully decoded entries) end up merged in place into the
existing `Inventory`'s reused map (`mergeGoMap`). -/
def updateStock (inven : Inventory) (f : FetchOutcome) : Inventory :=
  match f with
  | .retrievalError => inven
  | .deserializationError => inven
  | .partialDecodeError written => ⟨mergeGoMap inven.Accounts written.Accounts⟩
  | .snapshot snap => ⟨mergeGoMap inven.Accounts snap.Accounts⟩

theorem mapLookup_append (l₁ l₂ : List (String × α)) (k : String) :
    mapLookup (l₁ ++ l₂) k = (mapLookup l₁ k).or (mapLookup l₂ k) := by
  induction l₁ with
  | nil => rfl
  | cons p rest ih =>
    by_cases hp : p.1 == k
    · simp [mapLookup, hp]
    · simp [mapLookup, hp, ih]

theorem mapLookup_filter_keep (old new : List (String × α)) (k : String) :
    mapLookup (old.filter (fun p => (mapLookup new p.1).isNone)) k =
      if (mapLookup new k).isNone then mapLookup old k else none := by
  induction old with
  | nil => simp [mapLookup]
  | cons p rest ih =>
    by_cases hP : (mapLookup new p.1).isNone
    · rw [List.filter_cons_of_pos (by simpa using hP)]
      by_cases hp : p.1 == k
      · have hk : p.1 = k := by simpa using hp
        rw [← hk]
        simp [mapLookup, hP]
      · simp [mapLookup, hp, ih]
    · rw [List.filter_cons_of_neg (by simpa using hP)]
      by_cases hp : p.1 == k
      · have hk : p.1 = k := by simpa using hp
        rw [ih, ← hk]
        simp only [mapLookup]
        simp only [Bool.not_eq_true] at hP
        simp [hP, beq_self_eq_true]
      · simp [mapLookup, hp, ih]

theorem mapLookup_mergeGoMap (old new : List (String × α)) (k : String) :
    mapLookup (mergeGoMap old new) k =
      match mapLookup new k with
      | some v => some v
      | none => mapLookup old k := by
  unfold mergeGoMap
  rw [mapLookup_append, mapLookup_filter_keep]
  cases hnew : mapLookup new k <;> simp [hnew]

/-- A Go slice of `α`: `none` is the nil slice (JSON `null`), `some l` a
non-nil slice holding `l`. -/
abbrev GoSlice (α : Type) : Type := Option (List α)

/-- Go `append(s, x)`: appending to a nil slice allocates, so the result is
always non-nil. -/
def goAppend (s : GoSlice α) (x : α) : GoSlice α :=
  some (s.getD [] ++ [x])

/-- Go `len(s)`: the nil slice has length 0. -/
def goLen (s : GoSlice α) : Nat :=
  (s.getD []).length

/-- `InstanceListResponse` (api_server.go lines 36–40): a count plus the
slice of instances, both serialized. -/
structure InstanceListResponse where
  Count : Nat
  Instances : GoSlice Instance
deriving DecidableEq, Repr

/-- `ClusterListResponse` (api_server.go lines 59–63). -/
structure ClusterListResponse where
  Count : Nat
  Clusters : GoSlice Cluster
deriving DecidableEq, Repr

/-- `AccountListResponse` (api_server.go lines 84–88). -/
structure AccountListResponse where
  Count : Nat
  Accounts : GoSlice Account
deriving DecidableEq, Repr

/-- `NewInstanceListResponse` (api_server.go lines 44–58): records the
length and substitutes an empty non-nil slice for the nil/empty one so the
JSON field is `[]`, never `null`. -/
def NewInstanceListResponse (instances : GoSlice Instance) : InstanceListResponse :=
  let numInstances := goLen instances
  let instances := if numInstances = 0 then some [] else instances
  ⟨numInstances, instances⟩

/-- `NewClusterListResponse` (api_server.go lines 67–81). -/
def NewClusterListResponse (clusters : GoSlice Cluster) : ClusterListResponse :=
  let numClusters := goLen clusters
  let clusters := if numClusters = 0 then some [] else clusters
  ⟨numClusters, clusters⟩

/-- `NewAccountListResponse` (api_server.go lines 92–106). -/
def NewAccountListResponse (accounts : GoSlice Account) : AccountListResponse :=
  let numAccounts := goLen accounts
  let accounts := if numAccounts = 0 then some [] else accounts
  ⟨numAccounts, accounts⟩

/-- `getInstances` (api_server.go lines 135–151): refresh via
`updateStock`, then the three nested loops appending every instance of
every cluster of every account of the now-held inventory; respond with
`NewInstanceListResponse`. Returns the held inventory after the handler
together with the response body. -/
def getInstances (st : Inventory) (f : FetchOutcome) :
    Inventory × InstanceListResponse :=
  let inven := updateStock st f
  let instances : GoSlice Instance :=
    inven.Accounts.foldl (fun acc account =>
      account.2.Clusters.foldl (fun acc cluster =>
        cluster.2.Instances.foldl (fun acc i => goAppend acc i) acc) acc) none
  (inven, NewInstanceListResponse instances)

/-- `getClusters` (api_server.go lines 154–168): refresh, then the two
nested loops appending (a copy of) every cluster of every account. -/
def getClusters (st : Inventory) (f : FetchOutcome) :
    Inventory × ClusterListResponse :=
  let inven := updateStock st f
  let clusters : GoSlice Cluster :=
    inven.Accounts.foldl (fun acc account =>
      account.2.Clusters.foldl (fun acc cluster =>
        goAppend acc cluster.2) acc) none
  (inven, NewClusterListResponse clusters)

/-- `getClustersByName` (api_server.go lines 171–188): refresh, then the
same two nested loops, appending only the clusters whose `Name` equals the
requested name (Go `==` on strings: exact, case-sensitive). -/
def getClustersByName (name : String) (st : Inventory) (f : FetchOutcome) :
    Inventory × ClusterListResponse :=
  let inven := updateStock st f
  let clusters : GoSlice Cluster :=
    inven.Accounts.foldl (fun acc account =>
      account.2.Clusters.foldl (fun acc cluster =>
        if cluster.2.Name == name then goAppend acc cluster.2 else acc) acc) none
  (inven, NewClusterListResponse clusters)

/-- `getAccounts` (api_server.go lines 191–204): refresh, then one loop
appending every account value. -/
def getAccounts (st : Inventory) (f : FetchOutcome) :
    Inventory × AccountListResponse :=
  let inven := updateStock st f
  let accounts : GoSlice Account :=
    inven.Accounts.foldl (fun acc account => goAppend acc account.2) none
  (inven, NewAccountListResponse accounts)

/-- Body of the `getAccountsByName` HTTP answer: either status 200 with a
bare `Account` (no wrapper, no count), or status 404 with no body. -/
inductive AccountResponse where
  | ok (account : Account)
  | notFound
deriving DecidableEq, Repr

/-- `getAccountsByName` (api_server.go lines 207–219): refresh, then the
comma-ok map read `inven.Accounts[name]`; on hit the bare account is
serialized with status 200, on miss the handler answers 404. -/
def getAccountsByName (name : String) (st : Inventory) (f : FetchOutcome) :
    Inventory × AccountResponse :=
  let inven := updateStock st f
  match mapLookup inven.Accounts name with
  | some account => (inven, .ok account)
  | none => (inven, .notFound)

/-- Spec-side view: the accounts present in an inventory (the values of the
top-level mapping, in iteration order). -/
def accountsOf (inv : Inventory) : List Account :=
  inv.Accounts.map Prod.snd

/-- Spec-side view: the two-level flattening Account → Cluster. -/
def clustersOf (inv : Inventory) : List Cluster :=
  inv.Accounts.flatMap (fun account => account.2.Clusters.map Prod.snd)

/-- Spec-side view: the three-level flattening Account → Cluster → Instance. -/
def instancesOf (inv : Inventory) : List Instance :=
  inv.Accounts.flatMap (fun account =>
    account.2.Clusters.flatMap (fun cluster => cluster.2.Instances))

/-- One name for each of the five query endpoints of the API. -/
inductive QueryOp where
  | listInstances
  | listClusters
  | findClustersByName (name : String)
  | listAccounts
  | findAccountByName (name : String)
deriving DecidableEq, Repr

/-- The body a query endpoint answers with: one of the three list-wrapped
responses, a bare account (status 200), or status 404. -/
inductive ApiResponse where
  | instanceList (r : InstanceListResponse)
  | clusterList (r : ClusterListResponse)
  | accountList (r : AccountListResponse)
  | account (a : Account)
  | notFound
deriving DecidableEq, Repr

/-- Dispatch of the five endpoints, each as defined above. -/
def runQuery (op : QueryOp) (st : Inventory) (f : FetchOutcome) :
    Inventory × ApiResponse :=
  match op with
  | .listInstances =>
    let r := getInstances st f
    (r.1, .instanceList r.2)
  | .listClusters =>
    let r := getClusters st f
    (r.1, .clusterList r.2)
  | .findClustersByName n =>
    let r := getClustersByName n st f
    (r.1, .clusterList r.2)
  | .listAccounts =>
    let r := getAccounts st f
    (r.1, .accountList r.2)
  | .findAccountByName n =>
    let r := getAccountsByName n st f
    (r.1, match r.2 with
          | .ok a => .account a
          | .notFound => .notFound)

/-- Spec-side view of what each query answers on a given held inventory:
the flattenings of §4.2, list-wrapped with their lengths as counts, and
exact-match lookup for `findAccountByName`. -/
def queryView (op : QueryOp) (inv : Inventory) : ApiResponse :=
  match op with
  | .listInstances => .instanceList ⟨(instancesOf inv).length, some (instancesOf inv)⟩
  | .listClusters => .clusterList ⟨(clustersOf inv).length, some (clustersOf inv)⟩
  | .findClustersByName n =>
    .clusterList ⟨((clustersOf inv).filter (fun c => c.Name == n)).length,
                  some ((clustersOf inv).filter (fun c => c.Name == n))⟩
  | .listAccounts => .accountList ⟨(accountsOf inv).length, some (accountsOf inv)⟩
  | .findAccountByName n =>
    match mapLookup inv.Accounts n with
    | some a => .account a
    | none => .notFound

theorem flatMap_singleton_id (l : List α) : (l.flatMap fun x => [x]) = l := by
  induction l with
  | nil => rfl
  | cons x xs ih => simp [List.flatMap_cons, ih]

theorem foldl_slice_spec (step : GoSlice β → α → GoSlice β) (g : α → List β)
    (hgetD : ∀ acc a, (step acc a).getD [] = acc.getD [] ++ g a)
    (hnone : ∀ acc a, step acc a = none → acc = none ∧ g a = [])
    (xs : List α) (acc : GoSlice β) :
    (xs.foldl step acc).getD [] = acc.getD [] ++ xs.flatMap g ∧
      (xs.foldl step acc = none → acc = none ∧ xs.flatMap g = []) := by
  induction xs generalizing acc with
  | nil => simp
  | cons x rest ih =>
    constructor
    · have h1 := (ih (step acc x)).1
      rw [List.foldl_cons, h1, hgetD, List.flatMap_cons, List.append_assoc]
    · intro h
      rw [List.foldl_cons] at h
      have h2 := (ih (step acc x)).2 h
      have hsx := hnone _ _ h2.1
      refine ⟨hsx.1, ?_⟩
      rw [List.flatMap_cons, hsx.2, h2.2]
      rfl

theorem foldl_goAppend_spec (xs : List α) (acc : GoSlice α) :
    (xs.foldl goAppend acc).getD [] = acc.getD [] ++ xs ∧
      (xs.foldl goAppend acc = none → acc = none ∧ xs = []) := by
  have h := foldl_slice_spec goAppend (fun x => [x])
    (fun acc a => rfl)
    (fun acc a h => by simp [goAppend] at h)
    xs acc
  rwa [flatMap_singleton_id] at h

theorem flatMap_singleton_map (h : α → β) (l : List α) :
    (l.flatMap fun x => [h x]) = l.map h := by
  induction l with
  | nil => rfl
  | cons x xs ih => simp [List.flatMap_cons, ih]

theorem filter_flatMap_comm (l : List α) (g : α → List β) (p : β → Bool) :
    (l.flatMap g).filter p = l.flatMap (fun a => (g a).filter p) := by
  induction l with
  | nil => rfl
  | cons x xs ih => simp [List.flatMap_cons, List.filter_append, ih]

theorem filter_map_eq_ite (h : α → β) (p : β → Bool) (l : List α) :
    (l.map h).filter p = l.flatMap (fun x => if p (h x) then [h x] else []) := by
  induction l with
  | nil => rfl
  | cons x xs ih =>
    by_cases hp : p (h x) <;> simp [List.filter_cons, List.flatMap_cons, hp, ih]

theorem slice_normalize (s : GoSlice β) (l : List β)
    (hget : s.getD [] = l) (hn : s = none → l = []) :
    goLen s = l.length ∧
      (if goLen s = 0 then (some [] : GoSlice β) else s) = some l := by
  have hlen : goLen s = l.length := by rw [goLen, hget]
  refine ⟨hlen, ?_⟩
  by_cases h0 : goLen s = 0
  · rw [if_pos h0]
    have hl : l = [] := List.length_eq_zero.mp (by rw [← hlen]; exact h0)
    rw [hl]
  · rw [if_neg h0]
    cases s with
    | none =>
      exfalso
      apply h0
      rw [hlen, hn rfl]
      rfl
    | some xs =>
      rw [← hget]
      rfl

theorem NewInstanceListResponse_eq (s : GoSlice Instance) (l : List Instance)
    (hget : s.getD [] = l) (hn : s = none → l = []) :
    NewInstanceListResponse s = ⟨l.length, some l⟩ := by
  have hs := slice_normalize s l hget hn
  show InstanceListResponse.mk (goLen s) (if goLen s = 0 then some [] else s) = _
  rw [hs.2, hs.1]

theorem NewClusterListResponse_eq (s : GoSlice Cluster) (l : List Cluster)
    (hget : s.getD [] = l) (hn : s = none → l = []) :
    NewClusterListResponse s = ⟨l.length, some l⟩ := by
  have hs := slice_normalize s l hget hn
  show ClusterListResponse.mk (goLen s) (if goLen s = 0 then some [] else s) = _
  rw [hs.2, hs.1]

theorem NewAccountListResponse_eq (s : GoSlice Account) (l : List Account)
    (hget : s.getD [] = l) (hn : s = none → l = []) :
    NewAccountListResponse s = ⟨l.length, some l⟩ := by
  have hs := slice_normalize s l hget hn
  show AccountListResponse.mk (goLen s) (if goLen s = 0 then some [] else s) = _
  rw [hs.2, hs.1]

theorem getAccounts_eq (st : Inventory) (f : FetchOutcome) :
    getAccounts st f =
      (updateStock st f,
       ⟨(accountsOf (updateStock st f)).length,
        some (accountsOf (updateStock st f))⟩) := by
  have h := foldl_slice_spec (fun acc (p : String × Account) => goAppend acc p.2)
      (fun p => [p.2]) (fun acc p => rfl)
      (fun acc p hnone => by simp [goAppend] at hnone)
      (updateStock st f).Accounts none
  rw [flatMap_singleton_map] at h
  show (updateStock st f, NewAccountListResponse _) = _
  exact congrArg (Prod.mk (updateStock st f))
    (NewAccountListResponse_eq _ _ (by simpa using h.1)
      (fun hnone => by simpa [accountsOf] using (h.2 hnone).2))

theorem foldl_goAppend_snd_spec (xs : List (String × γ)) (acc : GoSlice γ) :
    (xs.foldl (fun acc p => goAppend acc p.2) acc).getD []
        = acc.getD [] ++ xs.map Prod.snd ∧
      (xs.foldl (fun acc p => goAppend acc p.2) acc = none →
        acc = none ∧ xs.map Prod.snd = []) := by
  have h := foldl_slice_spec (fun acc (p : String × γ) => goAppend acc p.2)
      (fun p => [p.2]) (fun acc p => rfl)
      (fun acc p hnone => by simp [goAppend] at hnone) xs acc
  rwa [flatMap_singleton_map] at h

theorem foldl_instances_spec (cs : List (String × Cluster)) (acc : GoSlice Instance) :
    (cs.foldl (fun acc q => q.2.Instances.foldl goAppend acc) acc).getD []
        = acc.getD [] ++ cs.flatMap (fun q => q.2.Instances) ∧
      (cs.foldl (fun acc q => q.2.Instances.foldl goAppend acc) acc = none →
        acc = none ∧ cs.flatMap (fun q => q.2.Instances) = []) :=
  foldl_slice_spec _ _ (fun _ _ => (foldl_goAppend_spec _ _).1)
    (fun _ _ h => (foldl_goAppend_spec _ _).2 h) cs acc

theorem foldl_clusters_filter_spec (n : String) (cs : List (String × Cluster))
    (acc : GoSlice Cluster) :
    (cs.foldl (fun acc q => if q.2.Name == n then goAppend acc q.2 else acc) acc).getD []
        = acc.getD [] ++ cs.flatMap (fun q => if q.2.Name == n then [q.2] else []) ∧
      (cs.foldl (fun acc q => if q.2.Name == n then goAppend acc q.2 else acc) acc = none →
        acc = none ∧ cs.flatMap (fun q => if q.2.Name == n then [q.2] else []) = []) := by
  refine foldl_slice_spec _ _ ?_ ?_ cs acc
  · intro acc q
    by_cases hq : q.2.Name == n <;> simp [hq, goAppend]
  · intro acc q h
    by_cases hq : q.2.Name == n
    · rw [if_pos hq] at h
      simp [goAppend] at h
    · rw [if_neg hq] at h
      exact ⟨h, by simp [hq]⟩

theorem getClusters_eq (st : Inventory) (f : FetchOutcome) :
    getClusters st f =
      (updateStock st f,
       ⟨(clustersOf (updateStock st f)).length,
        some (clustersOf (updateStock st f))⟩) := by
  have h := foldl_slice_spec
      (fun acc (p : String × Account) =>
        p.2.Clusters.foldl (fun acc q => goAppend acc q.2) acc)
      (fun p => p.2.Clusters.map Prod.snd)
      (fun acc p => (foldl_goAppend_snd_spec _ _).1)
      (fun acc p hnone => (foldl_goAppend_snd_spec _ _).2 hnone)
      (updateStock st f).Accounts none
  show (updateStock st f, NewClusterListResponse _) = _
  exact congrArg (Prod.mk (updateStock st f))
    (NewClusterListResponse_eq _ _ (by simpa [clustersOf] using h.1)
      (fun hnone => by simpa [clustersOf] using (h.2 hnone).2))

theorem getInstances_eq (st : Inventory) (f : FetchOutcome) :
    getInstances st f =
      (updateStock st f,
       ⟨(instancesOf (updateStock st f)).length,
        some (instancesOf (updateStock st f))⟩) := by
  have h := foldl_slice_spec
      (fun acc (p : String × Account) =>
        p.2.Clusters.foldl (fun acc q => q.2.Instances.foldl goAppend acc) acc)
      (fun p => p.2.Clusters.flatMap (fun q => q.2.Instances))
      (fun acc p => (foldl_instances_spec _ _).1)
      (fun acc p hnone => (foldl_instances_spec _ _).2 hnone)
      (updateStock st f).Accounts none
  show (updateStock st f, NewInstanceListResponse _) = _
  exact congrArg (Prod.mk (updateStock st f))
    (NewInstanceListResponse_eq _ _ (by simpa [instancesOf] using h.1)
      (fun hnone => by simpa [instancesOf] using (h.2 hnone).2))

theorem clustersOf_filter (inv : Inventory) (n : String) :
    (clustersOf inv).filter (fun c => c.Name == n) =
      inv.Accounts.flatMap (fun p =>
        p.2.Clusters.flatMap (fun q => if q.2.Name == n then [q.2] else [])) := by
  rw [clustersOf, filter_flatMap_comm]
  refine congrArg _ ?_
  funext p
  exact filter_map_eq_ite Prod.snd (fun c => c.Name == n) p.2.Clusters

theorem getClustersByName_eq (n : String) (st : Inventory) (f : FetchOutcome) :
    getClustersByName n st f =
      (updateStock st f,
       ⟨((clustersOf (updateStock st f)).filter (fun c => c.Name == n)).length,
        some ((clustersOf (updateStock st f)).filter (fun c => c.Name == n))⟩) := by
  have h := foldl_slice_spec
      (fun acc (p : String × Account) =>
        p.2.Clusters.foldl
          (fun acc q => if q.2.Name == n then goAppend acc q.2 else acc) acc)
      (fun p => p.2.Clusters.flatMap (fun q => if q.2.Name == n then [q.2] else []))
      (fun acc p => (foldl_clusters_filter_spec n _ _).1)
      (fun acc p hnone => (foldl_clusters_filter_spec n _ _).2 hnone)
      (updateStock st f).Accounts none
  show (updateStock st f, NewClusterListResponse _) = _
  refine congrArg (Prod.mk (updateStock st f)) (NewClusterListResponse_eq _ _ ?_ ?_)
  · rw [clustersOf_filter]
    simpa using h.1
  · intro hnone
    rw [clustersOf_filter]
    exact (h.2 hnone).2

theorem getAccountsByName_eq (n : String) (st : Inventory) (f : FetchOutcome) :
    getAccountsByName n st f =
      (updateStock st f,
       match mapLookup (updateStock st f).Accounts n with
       | some a => .ok a
       | none => .notFound) := by
  cases hm : mapLookup (updateStock st f).Accounts n <;>
    simp only [getAccountsByName, hm]

theorem runQuery_eq (op : QueryOp) (st : Inventory) (f : FetchOutcome) :
    runQuery op st f = (updateStock st f, queryView op (updateStock st f)) := by
  cases op with
  | listInstances =>
    simp only [runQuery, getInstances_eq]
    rfl
  | listClusters =>
    simp only [runQuery, getClusters_eq]
    rfl
  | findClustersByName n =>
    simp only [runQuery, getClustersByName_eq]
    rfl
  | listAccounts =>
    simp only [runQuery, getAccounts_eq]
    rfl
  | findAccountByName n =>
    simp only [runQuery, getAccountsByName_eq, queryView]
    cases mapLookup (updateStock st f).Accounts n <;> rfl

theorem mem_mapLookup_isSome (m : List (String × α)) (p : String × α)
    (hp : p ∈ m) : (mapLookup m p.1).isSome := by
  induction m with
  | nil => cases hp
  | cons q rest ih =>
    rcases List.mem_cons.mp hp with h | h
    · rw [← h]
      simp [mapLookup]
    · by_cases hq : q.1 == p.1
      · simp [mapLookup, hq]
      · simp only [mapLookup, hq, if_false]
        exact ih h

theorem mergeGoMap_idem (old new : List (String × α)) :
    mergeGoMap (mergeGoMap old new) new = mergeGoMap old new := by
  unfold mergeGoMap
  rw [List.filter_append]
  have h1 : (old.filter (fun p => (mapLookup new p.1).isNone)).filter
        (fun p => (mapLookup new p.1).isNone)
      = old.filter (fun p => (mapLookup new p.1).isNone) :=
    List.filter_eq_self.mpr (fun a ha => (List.mem_filter.mp ha).2)
  have h2 : new.filter (fun p => (mapLookup new p.1).isNone) = [] :=
    List.filter_eq_nil_iff.mpr (fun p hp => by
      have hs := mem_mapLookup_isSome new p hp
      simp only [Option.isNone]
      cases hm : mapLookup new p.1
      · rw [hm] at hs
        cases hs
      · simp)
  rw [h1, h2, List.append_nil]

theorem updateStock_idem (st : Inventory) (f : FetchOutcome) :
    updateStock (updateStock st f) f = updateStock st f := by
  cases f with
  | retrievalError => rfl
  | deserializationError => rfl
  | partialDecodeError written =>
    show Inventory.mk
        (mergeGoMap (mergeGoMap st.Accounts written.Accounts) written.Accounts) = _
    rw [mergeGoMap_idem]
    rfl
  | snapshot snap =>
    show Inventory.mk (mergeGoMap (mergeGoMap st.Accounts snap.Accounts) snap.Accounts) = _
    rw [mergeGoMap_idem]
    rfl

theorem mapLookup_eq_some_of_mem (m : List (String × α)) (n : String) (a : α)
    (hmem : (n, a) ∈ m) (hnd : KeysNodup m) : mapLookup m n = some a := by
  induction m with
  | nil => cases hmem
  | cons p rest ih =>
    rcases List.mem_cons.mp hmem with h | h
    · rw [← h]
      simp [mapLookup]
    · have hnd' := List.nodup_cons.mp hnd
      by_cases hp : p.1 == n
      · exfalso
        have hkey : p.1 = n := by simpa using hp
        apply hnd'.1
        rw [hkey]
        exact List.mem_map_of_mem Prod.fst h
      · simp only [mapLookup, hp, if_false]
        exact ih h hnd'.2

theorem mapLookup_eq_none_of_not_mem (m : List (String × α)) (n : String)
    (h : n ∉ m.map Prod.fst) : mapLookup m n = none := by
  induction m with
  | nil => rfl
  | cons p rest ih =>
    by_cases hp : p.1 == n
    · exfalso
      apply h
      rw [← show p.1 = n from by simpa using hp]
      exact List.mem_map_of_mem Prod.fst (List.mem_cons_self p rest)
    · simp only [mapLookup, hp, if_false]
      exact ih (fun hn => h (List.mem_cons_of_mem _ hn))

/-- True exactly on the three list-wrapped response forms (a count beside
the items); false on a bare account body and on a 404. -/
def isListWrapped : ApiResponse → Bool
  | .instanceList _ => true
  | .clusterList _ => true
  | .accountList _ => true
  | .account _ => false
  | .notFound => false

/-- The count field of a list-wrapped response. -/
def responseCount : ApiResponse → Option Nat
  | .instanceList r => some r.Count
  | .clusterList r => some r.Count
  | .accountList r => some r.Count
  | .account _ => none
  | .notFound => none

/-- The number of items carried by a list-wrapped response. -/
def responseLen : ApiResponse → Option Nat
  | .instanceList r => some (goLen r.Instances)
  | .clusterList r => some (goLen r.Clusters)
  | .accountList r => some (goLen r.Accounts)
  | .account _ => none
  | .notFound => none

/-- A cache state holding one account, "ghost", with one cluster and one
instance: the last-known-good state before a refresh. -/
def ghostAccount : Account := ⟨"ghost", [("c1", ⟨"c1", [⟨"i-1"⟩]⟩)]⟩

def ghostInventory : Inventory := ⟨[("ghost", ghostAccount)]⟩

/-- A successfully deserialized snapshot with zero accounts. -/
def emptySnapshot : Inventory := ⟨[]⟩

/-- A cache state holding one account, "acct1". -/
def acct1Account : Account := ⟨"acct1", [("clusterA", ⟨"clusterA", [⟨"i-1"⟩, ⟨"i-2"⟩]⟩)]⟩

def acct1Inventory : Inventory := ⟨[("acct1", acct1Account)]⟩

/-- Two accounts, each owning a cluster named "shared". -/
def sharedInventory : Inventory :=
  ⟨[("a1", ⟨"a1", [("shared", ⟨"shared", [⟨"i-a"⟩]⟩)]⟩),
    ("a2", ⟨"a2", [("shared", ⟨"shared", [⟨"i-b"⟩]⟩)]⟩)]⟩

/-- The same two-account map as `sharedInventory`, enumerated in the other
order: Go fixes no iteration order for a map, so either enumeration may be
observed by a given `range` loop. -/
def sharedInventorySwapped : Inventory :=
  ⟨[("a2", ⟨"a2", [("shared", ⟨"shared", [⟨"i-b"⟩]⟩)]⟩),
    ("a1", ⟨"a1", [("shared", ⟨"shared", [⟨"i-a"⟩]⟩)]⟩)]⟩

/-- The account stored while decoding the valid-JSON blob
`{"accounts":{"good":{...},"bad":[1]}}`: "good" decodes and is stored into
the reused map, then "bad" raises an UnmarshalTypeError. -/
def goodAccount : Account := ⟨"good", []⟩

/-- What that failing decode wrote before the error was returned. -/
def partialWritten : Inventory := ⟨[("good", goodAccount)]⟩

/-- Response equality up to enumeration order: same response form, same
count, and the same carried items as multisets (for the lookup endpoint,
the same bare account or the same 404). -/
def responsesEquivUpToOrder : ApiResponse → ApiResponse → Prop
  | .instanceList r₁, .instanceList r₂ =>
    r₁.Count = r₂.Count ∧ (r₁.Instances.getD []).Perm (r₂.Instances.getD [])
  | .clusterList r₁, .clusterList r₂ =>
    r₁.Count = r₂.Count ∧ (r₁.Clusters.getD []).Perm (r₂.Clusters.getD [])
  | .accountList r₁, .accountList r₂ =>
    r₁.Count = r₂.Count ∧ (r₁.Accounts.getD []).Perm (r₂.Accounts.getD [])
  | .account a, .account b => a = b
  | .notFound, .notFound => True
  | _, _ => False

theorem mem_of_mapLookup_eq_some (m : List (String × α)) (n : String) (a : α)
    (h : mapLookup m n = some a) : (n, a) ∈ m := by
  induction m with
  | nil => cases h
  | cons p rest ih =>
    by_cases hp : p.1 == n
    · have hk : p.1 = n := by simpa using hp
      have h2 : p.2 = a := by simpa [mapLookup, hp] using h
      have hpa : (n, a) = p := by rw [← hk, ← h2]
      rw [hpa]
      exact List.mem_cons_self p rest
    · simp only [mapLookup, hp, if_false] at h
      exact List.mem_cons_of_mem _ (ih h)

theorem not_mem_keys_of_mapLookup_eq_none (m : List (String × α)) (n : String)
    (h : mapLookup m n = none) : n ∉ m.map Prod.fst := by
  induction m with
  | nil => simp
  | cons p rest ih =>
    by_cases hp : p.1 == n
    · simp [mapLookup, hp] at h
    · simp only [mapLookup, hp, if_false] at h
      intro hmem
      rw [List.map_cons, List.mem_cons] at hmem
      rcases hmem with h1 | h1
      · exact hp (by simp [h1])
      · exact ih h h1

theorem mapLookup_perm (m₁ m₂ : List (String × α)) (n : String)
    (hperm : m₂.Perm m₁) (hnd : KeysNodup m₁) :
    mapLookup m₂ n = mapLookup m₁ n := by
  have hnd₂ : KeysNodup m₂ := (hperm.map Prod.fst).nodup_iff.mpr hnd
  cases h₁ : mapLookup m₁ n with
  | some a =>
    exact mapLookup_eq_some_of_mem _ _ _
      (hperm.mem_iff.mpr (mem_of_mapLookup_eq_some _ _ _ h₁)) hnd₂
  | none =>
    refine mapLookup_eq_none_of_not_mem _ _ ?_
    intro hmem
    exact not_mem_keys_of_mapLookup_eq_none _ _ h₁
      ((hperm.map Prod.fst).mem_iff.mp hmem)

theorem mergeGoMap_perm_left (m₁ m₂ new : List (String × α)) (h : m₂.Perm m₁) :
    (mergeGoMap m₂ new).Perm (mergeGoMap m₁ new) :=
  (h.filter _).append_right new

theorem updateStock_perm (i₁ i₂ : Inventory) (f : FetchOutcome)
    (h : i₂.Accounts.Perm i₁.Accounts) :
    (updateStock i₂ f).Accounts.Perm (updateStock i₁ f).Accounts := by
  cases f with
  | retrievalError => exact h
  | deserializationError => exact h
  | partialDecodeError written => exact mergeGoMap_perm_left _ _ _ h
  | snapshot snap => exact mergeGoMap_perm_left _ _ _ h

theorem queryView_equiv (op : QueryOp) (i₁ i₂ : Inventory)
    (hperm : i₂.Accounts.Perm i₁.Accounts) (hnd : KeysNodup i₁.Accounts) :
    responsesEquivUpToOrder (queryView op i₂) (queryView op i₁) := by
  cases op with
  | listInstances =>
    have h : (instancesOf i₂).Perm (instancesOf i₁) := hperm.flatMap_right _
    exact ⟨h.length_eq, h⟩
  | listClusters =>
    have h : (clustersOf i₂).Perm (clustersOf i₁) := hperm.flatMap_right _
    exact ⟨h.length_eq, h⟩
  | findClustersByName n =>
    have h : ((clustersOf i₂).filter (fun c => c.Name == n)).Perm
        ((clustersOf i₁).filter (fun c => c.Name == n)) :=
      (hperm.flatMap_right _).filter _
    exact ⟨h.length_eq, h⟩
  | listAccounts =>
    have h : (accountsOf i₂).Perm (accountsOf i₁) := hperm.map _
    exact ⟨h.length_eq, h⟩
  | findAccountByName n =>
    have hl := mapLookup_perm i₁.Accounts i₂.Accounts n hperm hnd
    show responsesEquivUpToOrder
      (match mapLookup i₂.Accounts n with
       | some a => ApiResponse.account a
       | none => ApiResponse.notFound)
      (match mapLookup i₁.Accounts n with
       | some a => ApiResponse.account a
       | none => ApiResponse.notFound)
    rw [hl]
    cases mapLookup i₁.Accounts n with
    | none => exact trivial
    | some a => exact rfl

/-- Claim C1: the claim says a successful refresh replaces the held inventory
entirely with the deserialized snapshot, so that no prior account absent
from the new snapshot survives. The code violates this: `json.Unmarshal`
decodes into the existing map, so with the cache holding account "ghost"
and fetched bytes that deserialize to an inventory with zero accounts,
`updateStock` keeps "ghost" — the held inventory is unchanged and is not
the deserialized snapshot. -/
theorem claim_C1_refresh_is_not_full_replacement :
    updateStock ghostInventory (.snapshot emptySnapshot) = ghostInventory ∧
    mapLookup (updateStock ghostInventory (.snapshot emptySnapshot)).Accounts "ghost"
      = some ghostAccount ∧
    updateStock ghostInventory (.snapshot emptySnapshot) ≠ emptySnapshot := by
  decide

/-- Claim C2 says every failing refresh (retrieval error or
deserialization error on the fetched bytes) leaves the held inventory
unchanged and the triggering query serves the previous inventory's data.
That holds for retrieval errors and for syntactically invalid JSON (first
conjunct), but the code violates the claim on the valid-JSON,
failing-decode path: with the cache holding account "ghost" and fetched
bytes like `{"accounts":{"good":{...},"bad":[1]}}`, `json.Unmarshal`
stores "good" into the reused map, then returns an UnmarshalTypeError —
which `updateStock` discards. The refresh fails, yet the held inventory
gains "good" (a partial merge of two snapshots), and the triggering
`getAccounts` serves the mutated data, not the previous inventory's. -/
theorem claim_C2_failing_decode_mutates_inventory :
    (∀ st : Inventory,
      updateStock st .retrievalError = st ∧
      updateStock st .deserializationError = st) ∧
    updateStock ghostInventory (.partialDecodeError partialWritten)
      ≠ ghostInventory ∧
    mapLookup
        (updateStock ghostInventory (.partialDecodeError partialWritten)).Accounts
        "good"
      = some goodAccount ∧
    (runQuery .listAccounts ghostInventory (.partialDecodeError partialWritten)).2
      ≠ queryView .listAccounts ghostInventory :=
  ⟨fun _ => ⟨rfl, rfl⟩, by decide, by decide, by decide⟩

/-- Claim C3: against the snapshot held after the refresh attempt, `getAccounts`
returns exactly its accounts, `getClusters` the two-level flattening,
`getInstances` the three-level flattening, and each response's count
equals the length of the returned sequence. -/
theorem claim_C3_list_queries_flatten_held_snapshot
    (st : Inventory) (f : FetchOutcome) :
    (getAccounts st f).2 =
      ⟨(accountsOf (updateStock st f)).length,
       some (accountsOf (updateStock st f))⟩ ∧
    (getClusters st f).2 =
      ⟨(clustersOf (updateStock st f)).length,
       some (clustersOf (updateStock st f))⟩ ∧
    (getInstances st f).2 =
      ⟨(instancesOf (updateStock st f)).length,
       some (instancesOf (updateStock st f))⟩ :=
  ⟨by rw [getAccounts_eq], by rw [getClusters_eq], by rw [getInstances_eq]⟩

/-- Claim C4: exact lookup by key in the held top-level mapping. When key `n` is
bound to account `a` (Go map keys are distinct), `getAccountsByName`
answers that stored account with status 200; when `n` is absent from the
keys it answers 404 — a NotFound outcome distinct from any refresh
failure (which never surfaces in the response at all), never an
empty-but-present account. -/
theorem claim_C4_find_account_by_name
    (st : Inventory) (f : FetchOutcome) (n : String) :
    (∀ a, (n, a) ∈ (updateStock st f).Accounts →
      KeysNodup (updateStock st f).Accounts →
      (getAccountsByName n st f).2 = .ok a) ∧
    (n ∉ (updateStock st f).Accounts.map Prod.fst →
      (getAccountsByName n st f).2 = .notFound) := by
  constructor
  · intro a hmem hnd
    rw [getAccountsByName_eq, mapLookup_eq_some_of_mem _ _ _ hmem hnd]
  · intro habs
    rw [getAccountsByName_eq, mapLookup_eq_none_of_not_mem _ _ habs]

/-- Witness for C4 at a concrete held inventory: key "acct1" is present,
key "x" is absent. -/
theorem claim_C4_find_account_by_name_witness :
    (getAccountsByName "acct1" acct1Inventory .retrievalError).2 = .ok acct1Account ∧
    (getAccountsByName "x" acct1Inventory .retrievalError).2 = .notFound :=
  ⟨(claim_C4_find_account_by_name acct1Inventory .retrievalError "acct1").1
      acct1Account (by decide) (by decide),
   (claim_C4_find_account_by_name acct1Inventory .retrievalError "x").2 (by decide)⟩

/-- Claim C5: `getClustersByName` returns exactly the clusters of the held
flattening whose name equals the requested one under Go's `==` on strings
(exact and case-sensitive), keeping every match; with two accounts each
holding a cluster named "shared", it returns two entries. -/
theorem claim_C5_find_clusters_by_name
    (st : Inventory) (f : FetchOutcome) (n : String) :
    (getClustersByName n st f).2 =
      ⟨((clustersOf (updateStock st f)).filter (fun c => c.Name == n)).length,
       some ((clustersOf (updateStock st f)).filter (fun c => c.Name == n))⟩ ∧
    (getClustersByName "shared" sharedInventory .retrievalError).2.Count = 2 :=
  ⟨by rw [getClustersByName_eq], by decide⟩

/-- Claim C6: every list-returning query answers a non-null collection, and with
zero matches — including against the never-successfully-loaded cache
`NewInventory` — it answers the empty sequence with count 0, never null
and never an error. -/
theorem claim_C6_zero_matches_empty_never_null
    (st : Inventory) (f : FetchOutcome) (n : String) :
    ((getInstances st f).2.Instances ≠ none ∧
     (getClusters st f).2.Clusters ≠ none ∧
     (getClustersByName n st f).2.Clusters ≠ none ∧
     (getAccounts st f).2.Accounts ≠ none) ∧
    (instancesOf (updateStock st f) = [] → (getInstances st f).2 = ⟨0, some []⟩) ∧
    (clustersOf (updateStock st f) = [] → (getClusters st f).2 = ⟨0, some []⟩) ∧
    ((clustersOf (updateStock st f)).filter (fun c => c.Name == n) = [] →
      (getClustersByName n st f).2 = ⟨0, some []⟩) ∧
    (accountsOf (updateStock st f) = [] → (getAccounts st f).2 = ⟨0, some []⟩) ∧
    ((getInstances NewInventory .retrievalError).2 = ⟨0, some []⟩ ∧
     (getClusters NewInventory .retrievalError).2 = ⟨0, some []⟩ ∧
     (getClustersByName n NewInventory .retrievalError).2 = ⟨0, some []⟩ ∧
     (getAccounts NewInventory .retrievalError).2 = ⟨0, some []⟩) := by
  refine ⟨⟨?_, ?_, ?_, ?_⟩, ?_, ?_, ?_, ?_, ⟨?_, ?_, ?_, ?_⟩⟩
  · rw [getInstances_eq]
    simp
  · rw [getClusters_eq]
    simp
  · rw [getClustersByName_eq]
    simp
  · rw [getAccounts_eq]
    simp
  · intro h
    rw [getInstances_eq, h]
    rfl
  · intro h
    rw [getClusters_eq, h]
    rfl
  · intro h
    rw [getClustersByName_eq, h]
    rfl
  · intro h
    rw [getAccounts_eq, h]
    rfl
  · rw [getInstances_eq]
    rfl
  · rw [getClusters_eq]
    rfl
  · rw [getClustersByName_eq]
    rfl
  · rw [getAccounts_eq]
    rfl

/-- Witness for C6: the empty-cache case discharges each zero-match
hypothesis. -/
theorem claim_C6_zero_matches_empty_never_null_witness :
    (getInstances NewInventory .deserializationError).2 = ⟨0, some []⟩ ∧
    (getClusters NewInventory .deserializationError).2 = ⟨0, some []⟩ ∧
    (getClustersByName "x" NewInventory .deserializationError).2 = ⟨0, some []⟩ ∧
    (getAccounts NewInventory .deserializationError).2 = ⟨0, some []⟩ :=
  ⟨(claim_C6_zero_matches_empty_never_null NewInventory .deserializationError "x").2.1
      (by decide),
   (claim_C6_zero_matches_empty_never_null NewInventory .deserializationError "x").2.2.1
      (by decide),
   (claim_C6_zero_matches_empty_never_null NewInventory .deserializationError "x").2.2.2.1
      (by decide),
   (claim_C6_zero_matches_empty_never_null NewInventory .deserializationError "x").2.2.2.2.1
      (by decide)⟩

/-- Claim C7 as stated is false at a concrete input: `findAccountByName` on a
cache holding account "acct1" answers a bare Account body — not a
list-wrapped result carrying a count field. -/
theorem claim_C7_counterexample :
    isListWrapped
        (runQuery (.findAccountByName "acct1") acct1Inventory .retrievalError).2
      = false ∧
    (runQuery (.findAccountByName "acct1") acct1Inventory .retrievalError).2
      = .account acct1Account := by
  decide

/-- Claim C7 amended: the four list-returning operations always answer a
list-wrapped result whose count field equals the number of carried items;
`findAccountByName` answers a bare Account (status 200) or NotFound
(status 404), never a list-wrapped result. -/
theorem claim_C7_amended_list_wrapping
    (st : Inventory) (f : FetchOutcome) (n : String) :
    (isListWrapped (runQuery .listInstances st f).2 = true ∧
      responseCount (runQuery .listInstances st f).2
        = responseLen (runQuery .listInstances st f).2) ∧
    (isListWrapped (runQuery .listClusters st f).2 = true ∧
      responseCount (runQuery .listClusters st f).2
        = responseLen (runQuery .listClusters st f).2) ∧
    (isListWrapped (runQuery (.findClustersByName n) st f).2 = true ∧
      responseCount (runQuery (.findClustersByName n) st f).2
        = responseLen (runQuery (.findClustersByName n) st f).2) ∧
    (isListWrapped (runQuery .listAccounts st f).2 = true ∧
      responseCount (runQuery .listAccounts st f).2
        = responseLen (runQuery .listAccounts st f).2) ∧
    (isListWrapped (runQuery (.findAccountByName n) st f).2 = false) ∧
    ((∃ a, (runQuery (.findAccountByName n) st f).2 = .account a) ∨
      (runQuery (.findAccountByName n) st f).2 = .notFound) := by
  refine ⟨⟨?_, ?_⟩, ⟨?_, ?_⟩, ⟨?_, ?_⟩, ⟨?_, ?_⟩, ?_, ?_⟩ <;>
    simp only [runQuery_eq, queryView] <;>
    try rfl
  all_goals cases hm : mapLookup (updateStock st f).Accounts n
  all_goals simp [isListWrapped]

/-- Claim C8 as stated ("identical results: same items, same count, same
order") is false: Go guarantees no map iteration order from one `range` to
the next, so the two calls' traversals may enumerate the same unchanged
held map in different orders. The embedding realizes an enumeration order
as the association-list order: `sharedInventorySwapped` is the same map as
`sharedInventory` (a permutation with identical bindings), yet
`getAccounts` over the two enumerations returns the same count and the
same accounts in a different order — the responses differ. -/
theorem claim_C8_counterexample :
    sharedInventorySwapped.Accounts.Perm sharedInventory.Accounts ∧
    (getAccounts sharedInventorySwapped .retrievalError).2.Count
      = (getAccounts sharedInventory .retrievalError).2.Count ∧
    (getAccounts sharedInventorySwapped .retrievalError).2.Accounts
      ≠ (getAccounts sharedInventory .retrievalError).2.Accounts :=
  ⟨by decide, by decide, by decide⟩

/-- Claim C8 amended: with the backing store unchanged between two
successive calls of the same query (both refresh attempts see the same
fetch outcome), the second call — which may enumerate the unchanged held
map in any order (`hperm`; Go map keys are distinct, `hnd`) — leaves the
same held map up to enumeration order and returns a response with the same
count and the same items up to order (and the identical account or 404 for
`findAccountByName`); the order of a list response is not guaranteed. -/
theorem claim_C8_amended_idempotent_up_to_order
    (op : QueryOp) (st inv₂ : Inventory) (f : FetchOutcome)
    (hperm : inv₂.Accounts.Perm (runQuery op st f).1.Accounts)
    (hnd : KeysNodup (runQuery op st f).1.Accounts) :
    (runQuery op inv₂ f).1.Accounts.Perm (runQuery op st f).1.Accounts ∧
    responsesEquivUpToOrder (runQuery op inv₂ f).2 (runQuery op st f).2 := by
  have hperm1 : inv₂.Accounts.Perm (updateStock st f).Accounts := by
    rw [runQuery_eq] at hperm
    exact hperm
  have hnd1 : KeysNodup (updateStock st f).Accounts := by
    rw [runQuery_eq] at hnd
    exact hnd
  have hpost : (updateStock inv₂ f).Accounts.Perm (updateStock st f).Accounts := by
    have h2 := updateStock_perm (updateStock st f) inv₂ f hperm1
    rw [updateStock_idem] at h2
    exact h2
  constructor
  · rw [runQuery_eq, runQuery_eq]
    exact hpost
  · rw [runQuery_eq, runQuery_eq]
    exact queryView_equiv op (updateStock st f) (updateStock inv₂ f) hpost hnd1

/-- Witness for amended C8: the two enumeration orders of the unchanged
two-account map give the same held map up to order and responses equal up
to order. -/
theorem claim_C8_amended_idempotent_up_to_order_witness :
    (runQuery .listAccounts sharedInventorySwapped .retrievalError).1.Accounts.Perm
      (runQuery .listAccounts sharedInventory .retrievalError).1.Accounts ∧
    responsesEquivUpToOrder
      (runQuery .listAccounts sharedInventorySwapped .retrievalError).2
      (runQuery .listAccounts sharedInventory .retrievalError).2 :=
  claim_C8_amended_idempotent_up_to_order .listAccounts sharedInventory
    sharedInventorySwapped .retrievalError (by decide) (by decide)

/-- Claim C9: the claim says the traversal runs against the freshly loaded
snapshot on success. The code violates this: after a successful fetch of a
snapshot with zero accounts, `getAccounts` traverses the in-place-merged
inventory and serves the stale account "ghost", while the traversal of the
freshly loaded snapshot itself would serve nothing. -/
theorem claim_C9_success_traverses_merged_not_fresh :
    (runQuery .listAccounts ghostInventory (.snapshot emptySnapshot)).2
      = .accountList ⟨1, some [ghostAccount]⟩ ∧
    queryView .listAccounts emptySnapshot = .accountList ⟨0, some []⟩ := by
  decide

/-- Claim C10: queries are read-only on the cache: the state a handler leaves
behind is exactly the post-refresh state `updateStock st f` (only the
refresh step writes), and the response is a function of that state alone —
two runs whose refresh steps yield the same held inventory yield the same
response (the traversals only read; cluster results are built from copies
of the cluster values). -/
theorem claim_C10_queries_read_only (op : QueryOp) (st : Inventory) (f : FetchOutcome) :
    (runQuery op st f).1 = updateStock st f ∧
    (∀ st2 f2, updateStock st f = updateStock st2 f2 →
      (runQuery op st f).2 = (runQuery op st2 f2).2) := by
  refine ⟨by rw [runQuery_eq], fun st2 f2 h => ?_⟩
  rw [runQuery_eq, runQuery_eq, h]

/-- Witness for C10: two runs over the same held inventory (both failed
refreshes leave it unchanged) answer identically. -/
theorem claim_C10_queries_read_only_witness :
    (runQuery .listAccounts ghostInventory .retrievalError).1
      = updateStock ghostInventory .retrievalError ∧
    (runQuery .listAccounts ghostInventory .retrievalError).2
      = (runQuery .listAccounts ghostInventory .deserializationError).2 :=
  ⟨(claim_C10_queries_read_only .listAccounts ghostInventory .retrievalError).1,
   (claim_C10_queries_read_only .listAccounts ghostInventory .retrievalError).2
     ghostInventory .deserializationError rfl⟩

end ClusterIQ
